import Mathlib

/-!
Verification development for the Maya Dashboard repository.

The frontend sources (App.tsx, pages/EbookStats.tsx, pages/PledgeManagerStats.tsx)
are shallowly embedded below: component state becomes explicit record types,
event handlers and effects become state-transition functions, and the pure
view-derivation code (filtering, pagination, percentage display) becomes pure
Lean functions. The FastAPI backend (snapshot cache, cookie policy) is not part
of the sources; where a claim depends on it, the definition is modelled from
the specification and marked as such in its doc comment.
-/

namespace MayaDashboard

namespace EbookStats

/-- Per-subject row of the eBook stats snapshot, from the UserRow type in
pages/EbookStats.tsx. -/
structure UserRow where
  id : Nat
  email : String
  name : String
  reward_title : String
  visited : Bool
  dl_pdf : Bool
  dl_pdf_full : Bool
  dl_pdf_compressed : Bool
  dl_epub : Bool
  dl_kindle : Bool
deriving DecidableEq, Repr

/-- Category counts of the snapshot summary, from the UserSummary type in
pages/EbookStats.tsx. -/
structure UserSummary where
  visited : Nat
  pdf : Nat
  pdf_full : Nat
  pdf_compressed : Nat
  epub : Nat
  both : Nat
  pdf_only : Nat
  epub_only : Nat
  kindle : Nat
deriving DecidableEq, Repr

/-- The stats response payload, from the EbookStatsResponse type in
pages/EbookStats.tsx. -/
structure EbookStatsResponse where
  ok : Bool
  generated_at : String
  window_days : Nat
  user_summary : UserSummary
  users : List UserRow
deriving DecidableEq, Repr

/-- The category filter selected in the view, from the Filter union type in
pages/EbookStats.tsx. -/
inductive Filter where
  | all
  | visited
  | pdf
  | pdf_full
  | pdf_compressed
  | epub
  | both
  | kindle
deriving DecidableEq, Repr

/-- Contiguous-subsequence test used to model JavaScript String.includes. -/
def containsSeq [BEq α] (needle : List α) : List α → Bool
  | [] => needle.isEmpty
  | b :: bs => needle.isPrefixOf (b :: bs) || containsSeq needle bs

/-- JavaScript String.includes: substring containment on the character
sequence. -/
def jsIncludes (hay needle : String) : Bool :=
  containsSeq needle.toList hay.toList

/-- JavaScript String.toLowerCase, modelled character by character. -/
def jsToLower (s : String) : String :=
  String.mk (s.data.map Char.toLower)

/-- JavaScript String.trim: whitespace stripped from both ends. -/
def jsTrim (s : String) : String :=
  String.mk
    (((s.data.dropWhile Char.isWhitespace).reverse.dropWhile
      Char.isWhitespace).reverse)

/-- The normalized search text, from search.toLowerCase().trim() in
pages/EbookStats.tsx. -/
def searchLowerOf (search : String) : String :=
  jsTrim (jsToLower search)

/-- The row predicate of the filteredUsers computation in pages/EbookStats.tsx:
the chain of early returns for the category filter followed by the search
match. -/
def userMatches (filter : Filter) (searchLower : String) (u : UserRow) : Bool :=
  if filter == Filter.visited && !u.visited then false
  else if filter == Filter.pdf && !u.dl_pdf then false
  else if filter == Filter.pdf_full && !u.dl_pdf_full then false
  else if filter == Filter.pdf_compressed && !u.dl_pdf_compressed then false
  else if filter == Filter.epub && !u.dl_epub then false
  else if filter == Filter.both && !(u.dl_pdf && u.dl_epub) then false
  else if filter == Filter.kindle && !u.dl_kindle then false
  else if !(searchLower == "") &&
      !(jsIncludes (jsToLower u.email) searchLower ||
        jsIncludes (jsToLower u.name) searchLower) then
    false
  else true

/-- filteredUsers from pages/EbookStats.tsx: (data?.users ?? []).filter(...). -/
def filteredUsers (users : List UserRow) (filter : Filter) (search : String) :
    List UserRow :=
  users.filter (userMatches filter (searchLowerOf search))

/-- PAGE_SIZE constant of pages/EbookStats.tsx. -/
def PAGE_SIZE : Nat := 20

/-- totalPages from pages/EbookStats.tsx:
Math.max(1, Math.ceil(filteredUsers.length / PAGE_SIZE)). -/
def totalPages (n : Nat) : Nat :=
  max 1 ((n + PAGE_SIZE - 1) / PAGE_SIZE)

/-- safePage from pages/EbookStats.tsx:
Math.min(Math.max(1, page), totalPages). -/
def safePage (n page : Nat) : Nat :=
  min (max 1 page) (totalPages n)

/-- startIdx from pages/EbookStats.tsx:
filteredUsers.length === 0 ? 0 : (safePage - 1) * PAGE_SIZE + 1. -/
def startIdx (n page : Nat) : Nat :=
  if n = 0 then 0 else (safePage n page - 1) * PAGE_SIZE + 1

/-- endIdx from pages/EbookStats.tsx:
Math.min(filteredUsers.length, safePage * PAGE_SIZE). -/
def endIdx (n page : Nat) : Nat :=
  min n (safePage n page * PAGE_SIZE)

/-- pagedUsers from pages/EbookStats.tsx:
filteredUsers.slice((safePage - 1) * PAGE_SIZE, (safePage - 1) * PAGE_SIZE + PAGE_SIZE). -/
def pagedUsers (users : List UserRow) (filter : Filter) (search : String)
    (page : Nat) : List UserRow :=
  let fu := filteredUsers users filter search
  (fu.drop ((safePage fu.length page - 1) * PAGE_SIZE)).take PAGE_SIZE

end EbookStats

/-- Outcome of one apiFetch call: either the parsed response body or the thrown
error message (from the throw in apiFetch of the page components). -/
inductive FetchResult (α : Type) where
  | ok (stats : α)
  | err (msg : String)
deriving DecidableEq, Repr

/-- Component state held by a stats page view: the data, error and loading
useState hooks of pages/EbookStats.tsx and pages/PledgeManagerStats.tsx. -/
structure ViewState (α : Type) where
  data : Option α
  error : Option String
  loading : Bool
deriving DecidableEq, Repr

/-- The fetchStats function of pages/EbookStats.tsx and
pages/PledgeManagerStats.tsx as a state transition: setError(null) runs first;
on success setData(stats) runs; on failure setData(null) and then
setError(message) run. -/
def fetchStats (st : ViewState α) (r : FetchResult α) : ViewState α :=
  let st1 := { st with error := none }
  match r with
  | FetchResult.ok stats => { st1 with data := some stats }
  | FetchResult.err msg =>
      let st2 := { st1 with data := none }
      { st2 with error := some msg }

/-- One React state-setter application, used to record which setters a view
effect applies after its awaited fetch resolves. -/
inductive SetterEvent (α : Type) where
  | setData (v : Option α)
  | setError (v : Option String)
  | setLoading (b : Bool)
deriving DecidableEq, Repr

/-- The setter applications performed by fetchStats after its awaited apiFetch
resolves, in source order: setData(stats) on success; setData(null) then
setError(message) on failure. -/
def fetchResolveEvents (r : FetchResult α) : List (SetterEvent α) :=
  match r with
  | FetchResult.ok stats => [SetterEvent.setData (some stats)]
  | FetchResult.err msg => [SetterEvent.setData none, SetterEvent.setError (some msg)]

/-- The setter applications performed by the mount effect of
pages/EbookStats.tsx after its awaited fetchStats(GET) resolves: the body of
fetchStats after the await, followed by setLoading(false) guarded by the
cancelled flag captured in the effect closure. -/
def mountPostResolveEvents (cancelled : Bool) (r : FetchResult α) :
    List (SetterEvent α) :=
  fetchResolveEvents r ++ (if cancelled then [] else [SetterEvent.setLoading false])

/-- The refreshSeq effect guard of pages/EbookStats.tsx:
if (refreshSeq === 0) return. The effect performs a refresh exactly when this
returns true. -/
def refreshEffectFires (refreshSeq : Nat) : Bool :=
  !(refreshSeq == 0)

/-- The per-view sync state of App.tsx together with the number of refresh
fetches currently running in the page component: the syncing flag and
refreshSeq counter useState hooks, plus the in-flight count of POST fetches
started by the refreshSeq effect of the page. -/
structure SyncState where
  syncing : Bool
  refreshSeq : Nat
  inFlight : Nat
deriving DecidableEq, Repr

/-- Initial values of the hooks: useState(false) and useState(0), with no
refresh running. -/
def initialSyncState : SyncState :=
  { syncing := false, refreshSeq := 0, inFlight := 0 }

/-- External events of the sync state machine: the user pressing the sync
control, and an in-flight refresh settling (its finally block invoking
onRefreshComplete). -/
inductive SyncEvent where
  | syncClick
  | refreshComplete
deriving DecidableEq, Repr

/-- handleSync from App.tsx: setSyncing(true) followed by
setRefreshSeq(n increased by one). -/
def handleSync (s : SyncState) : SyncState :=
  let s1 := { s with syncing := true }
  { s1 with refreshSeq := s1.refreshSeq + 1 }

/-- Effect of a user press of the sync control: the button carries
disabled equal to isSyncing, so a press while syncing is a no-op; otherwise
handleSync runs and the refreshSeq effect of the page starts a refresh fetch
unless its refreshSeq-is-zero guard fires. -/
def clickSync (s : SyncState) : SyncState :=
  if s.syncing then s
  else
    let s1 := handleSync s
    if refreshEffectFires s1.refreshSeq then { s1 with inFlight := s1.inFlight + 1 }
    else s1

/-- Effect of an in-flight refresh settling: the finally block invokes
onRefreshComplete, which runs setSyncing(false) in App.tsx. A completion can
only occur when a refresh is actually in flight. -/
def completeRefresh (s : SyncState) : SyncState :=
  if s.inFlight = 0 then s
  else { s with inFlight := s.inFlight - 1, syncing := false }

/-- One step of the sync state machine. -/
def applyEvent (s : SyncState) : SyncEvent → SyncState
  | SyncEvent.syncClick => clickSync s
  | SyncEvent.refreshComplete => completeRefresh s

/-- Run a sequence of events from the initial state. -/
def runEvents (es : List SyncEvent) : SyncState :=
  es.foldl applyEvent initialSyncState

namespace Backend

/-- Modelled from the spec: the Snapshot Cache lives in the FastAPI backend,
which is not among the sources under src. Section 4.5 and the design notes
describe it as a map from Report Key to a shared awaitable future plus the
last completed snapshot; callers arriving while a flight is pending attach to
the same future instead of starting a new Aggregator computation. The
invocations field counts Aggregator invocations per key. -/
structure SnapshotCache (κ σ : Type) where
  flight : κ → Option σ
  stored : κ → Option σ
  invocations : κ → Nat

/-- Modelled from the spec: the cache state before any snapshot has been
computed. -/
def emptyCache (κ σ : Type) : SnapshotCache κ σ :=
  { flight := fun _ => none, stored := fun _ => none, invocations := fun _ => 0 }

/-- Modelled from the spec: arrival of one refresh(key) call. If a flight for
the key is pending, the caller attaches to it and receives its snapshot;
otherwise the Aggregator is invoked once against the Event Store Reader, the
result is stored atomically, and a flight is registered for later arrivals of
the same concurrent batch. -/
def refreshArrive [DecidableEq κ] (aggregate : κ → σ) (c : SnapshotCache κ σ)
    (k : κ) : SnapshotCache κ σ × σ :=
  match c.flight k with
  | some s => (c, s)
  | none =>
      let s := aggregate k
      ({ flight := fun k2 => if k2 = k then some s else c.flight k2,
         stored := fun k2 => if k2 = k then some s else c.stored k2,
         invocations := fun k2 => if k2 = k then c.invocations k2 + 1
           else c.invocations k2 }, s)

/-- Modelled from the spec: a batch of n concurrent refresh(key) calls,
processed in arrival order by the single-threaded server event loop. Returns
the final cache state and the snapshot each call resolves to. -/
def refreshMany [DecidableEq κ] (aggregate : κ → σ) (c : SnapshotCache κ σ)
    (k : κ) : Nat → SnapshotCache κ σ × List σ
  | 0 => (c, [])
  | n + 1 =>
      let p1 := refreshArrive aggregate c k
      let p2 := refreshMany aggregate p1.1 k n
      (p2.1, p1.2 :: p2.2)

/-- SameSite attribute values used by the cookie notes of the README. -/
inductive SameSite where
  | lax
  | none
deriving DecidableEq, Repr

/-- Deployment configuration relevant to the cookie policy: the optional
COOKIE_DOMAIN environment variable of the README. -/
structure CookieConfig where
  cookieDomain : Option String
deriving DecidableEq, Repr

/-- Cookie transport attributes decided by the cookie policy. -/
structure CookieAttributes where
  secure : Bool
  sameSite : SameSite
  domain : Option String
deriving DecidableEq, Repr

/-- Modelled from the spec: the cookie policy lives in the FastAPI backend,
which is not among the sources under src. The README cookie notes say: when
COOKIE_DOMAIN is set, cookies are set with SameSite=None and Secure; when it
is not set, cookies use SameSite=Lax and are not Secure. -/
def attributesFor (cfg : CookieConfig) : CookieAttributes :=
  match cfg.cookieDomain with
  | some d => { secure := true, sameSite := SameSite.none, domain := some d }
  | Option.none =>
      { secure := false, sameSite := SameSite.lax, domain := Option.none }

end Backend

namespace PledgeManager

/-- The summary of the pledge-manager response, from the Summary type in
pages/PledgeManagerStats.tsx. The counts come from JSON numbers, so they are
modelled as integers and the positivity guard is kept explicit. -/
structure Summary where
  total_users : Int
  users_with_address : Int
deriving DecidableEq, Repr

/-- What the completion tile displays: either a numeric percentage rendered to
one decimal by toFixed(1), or the literal string 0. The numeric value is
modelled as the exact rational the JavaScript expression denotes. -/
inductive PercentDisplay where
  | computed (value : ℚ)
  | zeroText
deriving DecidableEq

/-- The percentage computation of pages/PledgeManagerStats.tsx: when the
summary is present and total_users is positive, the value
(users_with_address / total_users) * 100 is rendered; otherwise the string 0
is rendered. -/
def percentage (s : Option Summary) : PercentDisplay :=
  match s with
  | some t =>
      if t.total_users > 0 then
        PercentDisplay.computed
          ((t.users_with_address : ℚ) / (t.total_users : ℚ) * 100)
      else PercentDisplay.zeroText
  | none => PercentDisplay.zeroText

end PledgeManager

/-- A concrete user row used to instantiate theorems on explicit inputs. -/
def sampleUser : EbookStats.UserRow :=
  { id := 1, email := "ada@example.com", name := "Ada", reward_title := "Hardcover",
    visited := true, dl_pdf := true, dl_pdf_full := true, dl_pdf_compressed := false,
    dl_epub := false, dl_kindle := false }

/-- A concrete summary used inside the sample response. -/
def sampleSummary : EbookStats.UserSummary :=
  { visited := 1, pdf := 1, pdf_full := 1, pdf_compressed := 0, epub := 0,
    both := 0, pdf_only := 1, epub_only := 0, kindle := 0 }

/-- A concrete stats response used to instantiate theorems on explicit
inputs. -/
def sampleResponse : EbookStats.EbookStatsResponse :=
  { ok := true, generated_at := "2026-01-01T00:00:00Z", window_days := 30,
    user_summary := sampleSummary, users := [sampleUser] }

/-- Claim C8: the cookie policy is a deterministic pure function of the
configuration: with a cookie domain set the produced attributes have Secure
true and SameSite None, and with no cookie domain they have Secure false and
SameSite Lax. -/
theorem cookie_policy_from_config (cfg : Backend.CookieConfig) :
    (Backend.attributesFor cfg).secure = cfg.cookieDomain.isSome ∧
    (Backend.attributesFor cfg).sameSite =
      (if cfg.cookieDomain.isSome then Backend.SameSite.none
       else Backend.SameSite.lax) := by
  rcases cfg with ⟨d⟩
  cases d <;> simp [Backend.attributesFor]

/-- Claim C10: the completion percentage never divides by zero: it is the
string 0 exactly when the summary is absent or total_users is zero or
negative, and when total_users is positive it is the rendered value
(users_with_address / total_users) * 100 with a provably nonzero
denominator. -/
theorem percentage_guard (s : Option PledgeManager.Summary) :
    (PledgeManager.percentage s = PledgeManager.PercentDisplay.zeroText ↔
      s = none ∨ ∃ t, s = some t ∧ t.total_users ≤ 0) ∧
    ∀ t, s = some t → 0 < t.total_users →
      PledgeManager.percentage s =
        PledgeManager.PercentDisplay.computed
          ((t.users_with_address : ℚ) / (t.total_users : ℚ) * 100) ∧
      (t.total_users : ℚ) ≠ 0 := by
  constructor
  · cases s with
    | none => simp [PledgeManager.percentage]
    | some t =>
        by_cases h : t.total_users > 0
        · simp only [PledgeManager.percentage, if_pos h]
          constructor
          · intro hc
            exact absurd hc (by simp)
          · rintro (hc | ⟨t2, ht2, hle⟩)
            · exact absurd hc (by simp)
            · cases Option.some.inj ht2
              omega
        · simp only [PledgeManager.percentage, if_neg h]
          constructor
          · intro _
            exact Or.inr ⟨t, rfl, by omega⟩
          · intro _
            trivial
  · rintro t rfl hpos
    refine ⟨by simp [PledgeManager.percentage, hpos], ?_⟩
    exact_mod_cast (by omega : t.total_users ≠ 0)

/-- Witness for claim C10 at the concrete summary with 10 total users and 4
addresses. -/
theorem percentage_guard_witness :
    PledgeManager.percentage (some ⟨10, 4⟩) =
      PledgeManager.PercentDisplay.computed (((4 : Int) : ℚ) / ((10 : Int) : ℚ) * 100) ∧
    (((10 : Int) : ℚ) ≠ 0) :=
  (percentage_guard (some ⟨10, 4⟩)).2 ⟨10, 4⟩ rfl (by decide)

/-- Claim C1 counterexample: starting from a state holding a previously
fetched snapshot, a failing fetchStats call does not leave that data
unchanged: it clears the snapshot to null. -/
theorem fetch_failure_clears_snapshot_cex :
    (fetchStats (ViewState.mk (some sampleResponse) none false)
        (FetchResult.err "event store unreachable")).data = none ∧
    (ViewState.mk (some sampleResponse) none false).data ≠ none := by
  exact ⟨rfl, by simp⟩

/-- Claim C1 (amended): a failing fetchStats call sets the error message and
clears the snapshot to null, leaving the loading flag untouched, while a
successful call stores the new snapshot and clears the error; the view thus
shows the error over an empty snapshot rather than over the last good one. -/
theorem fetch_failure_sets_error_and_clears_data (st : ViewState α)
    (msg : String) (stats : α) :
    fetchStats st (FetchResult.err msg) =
      { data := none, error := some msg, loading := st.loading } ∧
    fetchStats st (FetchResult.ok stats) =
      { data := some stats, error := none, loading := st.loading } :=
  ⟨rfl, rfl⟩

/-- Claim C2 counterexample: with the cancelled flag set before the initial
get resolves, the mount effect still applies a state setter afterward: on a
successful response it applies setData. -/
theorem cancelled_mount_still_mutates_cex :
    mountPostResolveEvents true (FetchResult.ok sampleResponse) =
      [SetterEvent.setData (some sampleResponse)] ∧
    mountPostResolveEvents true (FetchResult.ok sampleResponse) ≠ [] :=
  ⟨rfl, by simp [mountPostResolveEvents, fetchResolveEvents]⟩

/-- Claim C2 (amended): when the view is cancelled before the initial get
resolves, only the setLoading setter is suppressed by the cancelled flag; the
setData setter, and on failure the setError setter, inside fetchStats are
still applied after cancellation. -/
theorem cancelled_mount_suppresses_only_loading (r : FetchResult α) :
    mountPostResolveEvents true r = fetchResolveEvents r ∧
    (∀ b, SetterEvent.setLoading b ∉ mountPostResolveEvents true r) ∧
    mountPostResolveEvents true r ≠ [] := by
  refine ⟨by simp [mountPostResolveEvents], ?_, ?_⟩ <;>
    cases r <;> simp [mountPostResolveEvents, fetchResolveEvents]

/-- Witness for claim C2 at a concrete failing response: after cancellation
the data and error setters are still applied, and no loading setter is. -/
theorem cancelled_mount_suppresses_only_loading_witness :
    mountPostResolveEvents true
        (FetchResult.err (α := EbookStats.EbookStatsResponse) "boom") =
      fetchResolveEvents (FetchResult.err "boom") ∧
    SetterEvent.setLoading (α := EbookStats.EbookStatsResponse) false ∉
      mountPostResolveEvents true (FetchResult.err "boom") :=
  ⟨(cancelled_mount_suppresses_only_loading (FetchResult.err "boom")).1,
   (cancelled_mount_suppresses_only_loading (FetchResult.err "boom")).2.1 false⟩

namespace EbookStats

/-- The pdf filter keeps exactly the rows whose dl_pdf flag holds, within the
rows passing the search. -/
theorem userMatches_pdf (s : String) (u : UserRow) :
    userMatches Filter.pdf s u = (u.dl_pdf && userMatches Filter.all s u) := by
  cases hp : u.dl_pdf <;> simp [userMatches, hp]

/-- The epub filter keeps exactly the rows whose dl_epub flag holds, within
the rows passing the search. -/
theorem userMatches_epub (s : String) (u : UserRow) :
    userMatches Filter.epub s u = (u.dl_epub && userMatches Filter.all s u) := by
  cases hp : u.dl_epub <;> simp [userMatches, hp]

/-- The both filter keeps exactly the rows whose dl_pdf and dl_epub flags both
hold, within the rows passing the search. -/
theorem userMatches_both (s : String) (u : UserRow) :
    userMatches Filter.both s u =
      (u.dl_pdf && u.dl_epub && userMatches Filter.all s u) := by
  cases hp : u.dl_pdf <;> cases he : u.dl_epub <;> simp [userMatches, hp, he]

/-- The normalized form of the empty search text is empty. -/
theorem searchLowerOf_empty : searchLowerOf "" = "" := by decide

/-- With the all filter and no search text, every row matches. -/
theorem userMatches_all_empty (u : UserRow) :
    userMatches Filter.all "" u = true := by
  simp [userMatches]

/-- With the all filter and empty search text, filtering keeps the whole user
list. -/
theorem filteredUsers_all_empty (users : List UserRow) :
    filteredUsers users Filter.all "" = users := by
  unfold filteredUsers
  rw [searchLowerOf_empty]
  exact List.filter_eq_self.mpr fun u _ => userMatches_all_empty u

/-- Claim C4: the both category is the boolean conjunction of the two
per-format flags, computed on the per-subject rows: the both-filtered list is
the filter of the snapshot rows by dl_pdf AND dl_epub (within the search), and
a row is in the both-filtered list exactly when it is in the pdf-filtered list
and in the epub-filtered list. -/
theorem both_filter_is_conjunction (users : List UserRow) (search : String) :
    filteredUsers users Filter.both search =
      users.filter
        (fun u => u.dl_pdf && u.dl_epub &&
          userMatches Filter.all (searchLowerOf search) u) ∧
    ∀ u, u ∈ filteredUsers users Filter.both search ↔
      u ∈ filteredUsers users Filter.pdf search ∧
      u ∈ filteredUsers users Filter.epub search := by
  constructor
  · unfold filteredUsers
    exact List.filter_congr fun u _ => userMatches_both _ u
  · intro u
    simp only [filteredUsers, List.mem_filter, userMatches_both, userMatches_pdf,
      userMatches_epub, Bool.and_eq_true]
    tauto

/-- Witness for claim C4 at the concrete one-user snapshot with empty
search. -/
theorem both_filter_is_conjunction_witness :
    MayaDashboard.sampleUser ∈
        filteredUsers [MayaDashboard.sampleUser] Filter.both "" ↔
      MayaDashboard.sampleUser ∈
          filteredUsers [MayaDashboard.sampleUser] Filter.pdf "" ∧
      MayaDashboard.sampleUser ∈
          filteredUsers [MayaDashboard.sampleUser] Filter.epub "" :=
  (both_filter_is_conjunction [MayaDashboard.sampleUser] "").2
    MayaDashboard.sampleUser

/-- Claim C5: every filtered and paginated view is derived client-side from
the snapshot rows: for every filter, search text and page, the displayed page
is a subsequence of the snapshot user list, and with the all filter and empty
search the filtered list is the full user list. -/
theorem paged_view_from_snapshot (users : List UserRow) (filter : Filter)
    (search : String) (page : Nat) :
    List.Sublist (pagedUsers users filter search page) users ∧
    filteredUsers users Filter.all "" = users := by
  refine ⟨?_, filteredUsers_all_empty users⟩
  have h1 : List.Sublist (pagedUsers users filter search page)
      ((filteredUsers users filter search).drop
        ((safePage (filteredUsers users filter search).length page - 1) *
          PAGE_SIZE)) := List.take_sublist _ _
  have h2 := List.drop_sublist
    ((safePage (filteredUsers users filter search).length page - 1) * PAGE_SIZE)
    (filteredUsers users filter search)
  have h3 : List.Sublist (filteredUsers users filter search) users :=
    List.filter_sublist _
  exact h1.trans (h2.trans h3)

/-- Arithmetic facts about the pagination quantities, over the length of the
filtered list. -/
theorem pagination_arith (n page : Nat) :
    1 ≤ totalPages n ∧ 1 ≤ safePage n page ∧ safePage n page ≤ totalPages n ∧
    (0 < n → (safePage n page - 1) * PAGE_SIZE < n ∧
      safePage n page * PAGE_SIZE = (safePage n page - 1) * PAGE_SIZE + PAGE_SIZE) := by
  simp only [totalPages, safePage, PAGE_SIZE]
  omega

/-- Claim C9: pagination in the EbookStats view is total and in range:
totalPages is at least one even for the empty list, safePage is clamped to
the interval from one to totalPages, the displayed page has at most PAGE_SIZE
rows and is the slice of the filtered list at safePage, and for a non-empty
filtered list the displayed range satisfies
1 at most startIdx, startIdx at most endIdx, endIdx at most the list length,
with endIdx - startIdx + 1 equal to the number of displayed rows. -/
theorem pagination_total_in_range (users : List UserRow) (filter : Filter)
    (search : String) (page : Nat) :
    1 ≤ totalPages (filteredUsers users filter search).length ∧
    1 ≤ safePage (filteredUsers users filter search).length page ∧
    safePage (filteredUsers users filter search).length page ≤
      totalPages (filteredUsers users filter search).length ∧
    (pagedUsers users filter search page).length ≤ PAGE_SIZE ∧
    pagedUsers users filter search page =
      ((filteredUsers users filter search).drop
        ((safePage (filteredUsers users filter search).length page - 1) *
          PAGE_SIZE)).take PAGE_SIZE ∧
    (0 < (filteredUsers users filter search).length →
      1 ≤ startIdx (filteredUsers users filter search).length page ∧
      startIdx (filteredUsers users filter search).length page ≤
        endIdx (filteredUsers users filter search).length page ∧
      endIdx (filteredUsers users filter search).length page ≤
        (filteredUsers users filter search).length ∧
      endIdx (filteredUsers users filter search).length page -
        startIdx (filteredUsers users filter search).length page + 1 =
        (pagedUsers users filter search page).length) := by
  obtain ⟨h1, h2, h3, h4⟩ :=
    pagination_arith (filteredUsers users filter search).length page
  have hlen : (pagedUsers users filter search page).length =
      min PAGE_SIZE ((filteredUsers users filter search).length -
        (safePage (filteredUsers users filter search).length page - 1) *
          PAGE_SIZE) := by
    simp [pagedUsers, List.length_take, List.length_drop]
  simp only [PAGE_SIZE] at hlen
  refine ⟨h1, h2, h3, ?_, rfl, ?_⟩
  · simp only [PAGE_SIZE]
    omega
  · intro hn
    obtain ⟨hk, hsp⟩ := h4 hn
    simp only [PAGE_SIZE] at hk hsp
    simp only [startIdx, endIdx, PAGE_SIZE,
      if_neg (by omega : ¬(filteredUsers users filter search).length = 0)]
    omega

/-- Witness for claim C9 at the concrete one-user snapshot, all filter, empty
search, page one. -/
theorem pagination_total_in_range_witness :
    0 < (filteredUsers [MayaDashboard.sampleUser] Filter.all "").length ∧
    (1 ≤ startIdx (filteredUsers [MayaDashboard.sampleUser] Filter.all "").length 1 ∧
      startIdx (filteredUsers [MayaDashboard.sampleUser] Filter.all "").length 1 ≤
        endIdx (filteredUsers [MayaDashboard.sampleUser] Filter.all "").length 1 ∧
      endIdx (filteredUsers [MayaDashboard.sampleUser] Filter.all "").length 1 ≤
        (filteredUsers [MayaDashboard.sampleUser] Filter.all "").length ∧
      endIdx (filteredUsers [MayaDashboard.sampleUser] Filter.all "").length 1 -
        startIdx (filteredUsers [MayaDashboard.sampleUser] Filter.all "").length 1 + 1 =
        (pagedUsers [MayaDashboard.sampleUser] Filter.all "" 1).length) := by
  have hpos : 0 < (filteredUsers [MayaDashboard.sampleUser] Filter.all "").length := by
    rw [filteredUsers_all_empty]
    simp
  exact ⟨hpos,
    (pagination_total_in_range [MayaDashboard.sampleUser] Filter.all "" 1).2.2.2.2.2 hpos⟩

end EbookStats

/-- Inductive invariant of the sync state machine: at most one refresh fetch
is running, and the syncing flag holds exactly while one is. -/
def SyncInv (s : SyncState) : Prop :=
  s.inFlight ≤ 1 ∧ (s.syncing = true ↔ s.inFlight = 1)

/-- The initial state satisfies the invariant. -/
theorem syncInv_init : SyncInv initialSyncState := by
  simp [SyncInv, initialSyncState]

/-- Every event preserves the invariant. -/
theorem syncInv_step (s : SyncState) (e : SyncEvent) (h : SyncInv s) :
    SyncInv (applyEvent s e) := by
  rcases s with ⟨sy, seq, fl⟩
  simp only [SyncInv] at h ⊢
  obtain ⟨hfl, hiff⟩ := h
  cases e with
  | syncClick =>
      cases sy with
      | true => simpa [applyEvent, clickSync] using And.intro hfl hiff
      | false =>
          have hfl0 : fl = 0 := by
            simp only [Bool.false_eq_true, false_iff] at hiff
            omega
          subst hfl0
          simp [applyEvent, clickSync, handleSync, refreshEffectFires]
  | refreshComplete =>
      by_cases h0 : fl = 0
      · subst h0
        simpa [applyEvent, completeRefresh] using And.intro hfl hiff
      · have hfl1 : fl = 1 := by omega
        subst hfl1
        simp [applyEvent, completeRefresh]

/-- The invariant holds along any run from a state satisfying it. -/
theorem syncInv_foldl (es : List SyncEvent) (s : SyncState) (h : SyncInv s) :
    SyncInv (es.foldl applyEvent s) := by
  induction es generalizing s with
  | nil => exact h
  | cons e es ih => exact ih _ (syncInv_step s e h)

/-- Claim C6: at most one refresh is in flight per view instance: along every
event sequence the number of running refresh fetches never exceeds one, the
syncing flag holds exactly while one is running, and pressing the sync
control while the syncing flag holds is a no-op because the control is
disabled. -/
theorem at_most_one_refresh_in_flight (es : List SyncEvent) :
    (runEvents es).inFlight ≤ 1 ∧
    ((runEvents es).syncing = true ↔ (runEvents es).inFlight = 1) ∧
    ∀ s : SyncState, s.syncing = true → clickSync s = s := by
  obtain ⟨h1, h2⟩ := syncInv_foldl es initialSyncState syncInv_init
  refine ⟨h1, h2, ?_⟩
  intro s hs
  simp [clickSync, hs]

/-- Witness for claim C6 on the one-click event sequence and on a concrete
syncing state. -/
theorem at_most_one_refresh_in_flight_witness :
    (runEvents [SyncEvent.syncClick]).inFlight ≤ 1 ∧
    clickSync (SyncState.mk true 5 1) = SyncState.mk true 5 1 :=
  ⟨(at_most_one_refresh_in_flight [SyncEvent.syncClick]).1,
   (at_most_one_refresh_in_flight []).2.2 (SyncState.mk true 5 1) rfl⟩

/-- Claim C7: the refresh-request counter starts at zero, an enabled sync
press increments it by exactly one while a disabled press leaves it
unchanged, no event ever decreases it (both per step and along any extended
run), and the refresh effect fires only for counter values strictly greater
than zero. -/
theorem refreshSeq_monotone (es : List SyncEvent) (e : SyncEvent) :
    initialSyncState.refreshSeq = 0 ∧
    (∀ s : SyncState, (clickSync s).refreshSeq =
      if s.syncing then s.refreshSeq else s.refreshSeq + 1) ∧
    (∀ s : SyncState, s.refreshSeq ≤ (applyEvent s e).refreshSeq) ∧
    (runEvents es).refreshSeq ≤ (runEvents (es ++ [e])).refreshSeq ∧
    refreshEffectFires 0 = false ∧
    (∀ n : Nat, refreshEffectFires (n + 1) = true) := by
  have hclick : ∀ s : SyncState, (clickSync s).refreshSeq =
      if s.syncing then s.refreshSeq else s.refreshSeq + 1 := by
    intro s
    cases hs : s.syncing <;>
      simp [clickSync, handleSync, refreshEffectFires, hs]
  have hstep : ∀ (s : SyncState) (e2 : SyncEvent),
      s.refreshSeq ≤ (applyEvent s e2).refreshSeq := by
    intro s e2
    cases e2 with
    | syncClick =>
        rw [applyEvent, hclick s]
        cases s.syncing <;> simp
    | refreshComplete =>
        by_cases h0 : s.inFlight = 0 <;> simp [applyEvent, completeRefresh, h0]
  refine ⟨rfl, hclick, fun s => hstep s e, ?_, rfl, fun n => rfl⟩
  have : runEvents (es ++ [e]) = applyEvent (runEvents es) e := by
    simp [runEvents, List.foldl_append]
  rw [this]
  exact hstep (runEvents es) e

namespace Backend

/-- Once a flight for the key is pending, further concurrent arrivals leave
the cache untouched and all resolve to the flight snapshot. -/
theorem refreshMany_attached [DecidableEq κ] (aggregate : κ → σ)
    (c : SnapshotCache κ σ) (k : κ) (s : σ) (h : c.flight k = some s) :
    ∀ n : Nat, refreshMany aggregate c k n = (c, List.replicate n s) := by
  intro n
  induction n with
  | zero => simp [refreshMany]
  | succ n ih => simp [refreshMany, refreshArrive, h, ih, List.replicate]

/-- Claim C3: single-flight semantics of refresh: for every key and every
number n of concurrent refresh calls on the empty cache, all n calls resolve
to the one snapshot computed by the Aggregator, and the Aggregator is invoked
exactly min n 1 times for that key, so exactly once whenever n is at least
one. -/
theorem single_flight_refresh {κ σ : Type} [DecidableEq κ] (aggregate : κ → σ)
    (k : κ) (n : Nat) :
    (refreshMany aggregate (emptyCache κ σ) k n).2 =
      List.replicate n (aggregate k) ∧
    (refreshMany aggregate (emptyCache κ σ) k n).1.invocations k = min n 1 := by
  cases n with
  | zero => simp [refreshMany, emptyCache]
  | succ n =>
      have hflight :
          (refreshArrive aggregate (emptyCache κ σ) k).1.flight k =
            some (aggregate k) := by
        simp [refreshArrive, emptyCache]
      have hinv :
          (refreshArrive aggregate (emptyCache κ σ) k).1.invocations k = 1 := by
        simp [refreshArrive, emptyCache]
      have hval : (refreshArrive aggregate (emptyCache κ σ) k).2 = aggregate k := by
        simp [refreshArrive, emptyCache]
      have hrest := refreshMany_attached aggregate
        (refreshArrive aggregate (emptyCache κ σ) k).1 k (aggregate k) hflight n
      constructor
      · show (refreshArrive aggregate (emptyCache κ σ) k).2 ::
          (refreshMany aggregate (refreshArrive aggregate (emptyCache κ σ) k).1
            k n).2 = List.replicate (n + 1) (aggregate k)
        rw [hval, hrest]
        simp [List.replicate]
      · show (refreshMany aggregate (refreshArrive aggregate (emptyCache κ σ) k).1
          k n).1.invocations k = min (n + 1) 1
        rw [hrest]
        simpa using hinv

end Backend

end MayaDashboard
